import Mathlib

/-!
Verification of the tabular text writer `writetotxt` (mgplottools/io.py).

Strings of the Python source are modelled as `List Char`; numeric scalars
(the entries of the numpy arrays) are modelled as rationals, which is exact
on every value exercised below.  Fallible steps of the routine return
explicit errors mirroring the exceptions of the source (`ValueError` on a
row-length mismatch, `ValueError` on a format mismatch, `IndexError` on an
out-of-range element access, and errors of the `%` string-interpolation
operator).
-/

namespace Mgplottools

/-- Python strings, modelled as lists of characters. -/
abbrev Str := List Char

/-- The exceptions that can escape the body of `writetotxt`. -/
inductive WErr where
  /-- ValueError: All arrays must be of same length. -/
  | lengthMismatch : WErr
  /-- ValueError: fmt has wrong number of percent formats. -/
  | fmtMismatch : WErr
  /-- IndexError from `a[i_row]` when the row index is out of range. -/
  | indexError : WErr
  /-- TypeError/ValueError raised by the percent interpolation operator. -/
  | formatError : WErr
deriving DecidableEq, Repr

/-- An input column: a numpy array that is either real- or complex-valued
(`np.iscomplexobj` distinguishes the two by dtype). A complex element is a
pair (real part, imaginary part). -/
inductive Col where
  | real (xs : List ℚ) : Col
  | cplx (zs : List (ℚ × ℚ)) : Col

/-- Python `len(a)` on a column. -/
def Col.len : Col → Nat
  | .real xs => xs.length
  | .cplx zs => zs.length

/-- Model of `np.iscomplexobj a`. -/
def Col.isComplex : Col → Bool
  | .real _ => false
  | .cplx _ => true

/-- Number of output scalar fields a column contributes to each row
(complex arrays contribute two, real arrays one). -/
def Col.width : Col → Nat
  | .real _ => 1
  | .cplx _ => 2

/-- Total number of scalar columns contributed by a list of arrays. -/
def scalarWidth (cols : List Col) : Nat :=
  (cols.map Col.width).sum

/-- The `fmt` keyword argument: a single string or a list/tuple of strings. -/
inductive Fmt where
  | str (s : Str) : Fmt
  | list (toks : List Str) : Fmt

/-- The `header`/`footer` keyword arguments: a single (possibly multi-line)
string or a list/tuple of strings. -/
inductive StrOrList where
  | str (s : Str) : StrOrList
  | list (lines : List Str) : StrOrList

/-- Python `s.count('%')`: the number of percent characters in `s`. -/
def countPercent (s : Str) : Nat :=
  s.countP (fun c => c == '%')

/-- Python `s.startswith(p)`. -/
def startsWith (p s : Str) : Bool :=
  s.take p.length == p

/-- Python `s.endswith(p)`. -/
def endsWith (p s : Str) : Bool :=
  s.drop (s.length - p.length) == p

/-- The per-line comment normalization applied to header and footer lines
(io.py lines 123-127 and 180-184): a line already carrying the comment
string is kept, a line opening with at least `len(comments)` spaces has
those spaces overwritten by the comment string, any other line has the
comment string prepended. -/
def fixCommentLine (comments line : Str) : Str :=
  if startsWith comments line then line
  else if startsWith (List.replicate comments.length ' ') line then
    comments ++ line.drop comments.length
  else comments ++ line

/-- Normalization of the `header`/`footer` argument to a single string:
a list or tuple is joined with newlines (io.py lines 119-120, 176-177). -/
def hfJoin : StrOrList → Str
  | .str s => s
  | .list l => List.intercalate ['\n'] l

/-- The comment-normalized lines printed for a header or footer argument
(io.py lines 118-128, 175-185): nothing when the joined string is empty,
otherwise one output line per newline-separated piece. -/
def hfLines (x : StrOrList) (comments : Str) : List Str :=
  let s := hfJoin x
  if 0 < s.length then (s.splitOn '\n').map (fixCommentLine comments) else []

/-- State of the loop over the input arrays (io.py lines 131-133):
accumulated scalar-column count, established row count, and the row format
string accumulated so far. -/
structure ScanState where
  n_cols : Nat
  n_rows : Nat
  row_fmt : Str
deriving DecidableEq, Repr

/-- Contribution of one array to the scan state (io.py lines 148-155): a
complex array adds two scalar columns and, while the row format is not yet
complete, two copies of `fmt ++ delimiter`; a real array adds one of each. -/
def addCol (tok delim : Str) (comp : Bool) (a : Col) (st : ScanState) : ScanState :=
  if a.isComplex then
    ⟨st.n_cols + 2, st.n_rows,
      if comp then st.row_fmt else st.row_fmt ++ tok ++ delim ++ tok ++ delim⟩
  else
    ⟨st.n_cols + 1, st.n_rows,
      if comp then st.row_fmt else st.row_fmt ++ tok ++ delim⟩

/-- One iteration of the loop over the input arrays (io.py lines 142-155):
the row count is established from the first array seen while it is still
zero, and any later array of a different length raises `ValueError`. -/
def scanStep (tok delim : Str) (comp : Bool) (st : ScanState) (a : Col) :
    Except WErr ScanState :=
  if st.n_rows = 0 then
    Except.ok (addCol tok delim comp a ⟨st.n_cols, a.len, st.row_fmt⟩)
  else if st.n_rows = a.len then
    Except.ok (addCol tok delim comp a st)
  else
    Except.error WErr.lengthMismatch

/-- The whole loop over the input arrays (io.py lines 142-155). -/
def scanArgs (tok delim : Str) (comp : Bool) (st : ScanState) :
    List Col → Except WErr ScanState
  | [] => Except.ok st
  | a :: rest =>
    match scanStep tok delim comp st a with
    | Except.error e => Except.error e
    | Except.ok st' => scanArgs tok delim comp st' rest

/-- Initial row format and completion flag derived from `fmt` (io.py lines
135-141): a list/tuple of formats is joined with the delimiter and is
complete; a single string counting more than one percent character is taken
verbatim as the full row format; otherwise the row format starts empty and
is accumulated per column. -/
def fmtInit : Fmt → Str → Str × Bool
  | .list toks, delim => (List.intercalate delim toks, true)
  | .str s, _ => if 1 < countPercent s then (s, true) else ([], false)

/-- The token appended per column while the row format is incomplete; it is
only ever used in the single-simple-token case, where `fmt` is a string. -/
def fmtTok : Fmt → Str
  | .str s => s
  | .list _ => []

/-- Removal of the trailing delimiter from an accumulated row format
(io.py lines 159-161, Python `row_fmt[:-len(delimiter)]`). -/
def stripTrailingDelim (delim row : Str) : Str :=
  if 0 < delim.length then row.take (row.length - delim.length) else row

/-- Fixed-point decimal rendering of a rational with `p` digits after the
decimal point, as the C `%f` conversion renders a double whose value is
exactly representable: the magnitude is scaled by `10 ^ p` and rounded to
the nearest integer (halves up, which coincides with the C behavior on
every value rendered in this development, where no tie occurs). -/
def formatFixed (p : Nat) (q : ℚ) : Str :=
  let a := q.num.natAbs * 10 ^ p
  let n : Nat := (2 * a + q.den) / (2 * q.den)
  let ds := Nat.toDigits 10 n
  let ds := if ds.length < p + 1 then List.replicate (p + 1 - ds.length) '0' ++ ds else ds
  let core := if p = 0 then ds else ds.take (ds.length - p) ++ '.' :: ds.drop (ds.length - p)
  if q.num < 0 then '-' :: core else core

/-- Model of the Python percent interpolation operator `template % values`,
restricted to the fixed-point conversions (`%f`, `%.Nf` with a precision of
at most two digits) and the `%%` escape actually exercised here; any other
conversion, too few values, or leftover values is an interpolation error. -/
def pyFormat : Str → List ℚ → Except WErr Str
  | [], [] => Except.ok []
  | [], _ :: _ => Except.error WErr.formatError
  | '%' :: '%' :: rest, vals =>
    (fun t => '%' :: t) <$> pyFormat rest vals
  | '%' :: 'f' :: rest, v :: vals =>
    (fun t => formatFixed 6 v ++ t) <$> pyFormat rest vals
  | '%' :: '.' :: c :: 'f' :: rest, v :: vals =>
    if c.isDigit then
      (fun t => formatFixed (c.toNat - 48) v ++ t) <$> pyFormat rest vals
    else Except.error WErr.formatError
  | '%' :: '.' :: c₁ :: c₂ :: 'f' :: rest, v :: vals =>
    if c₁.isDigit && c₂.isDigit then
      (fun t => formatFixed (10 * (c₁.toNat - 48) + (c₂.toNat - 48)) v ++ t) <$>
        pyFormat rest vals
    else Except.error WErr.formatError
  | '%' :: _, _ => Except.error WErr.formatError
  | c :: rest, vals =>
    (fun t => c :: t) <$> pyFormat rest vals

/-- Python `a[i]` on a column (io.py lines 168-172): a real array yields its
element, a complex array yields real part then imaginary part; an index out
of range raises `IndexError`. -/
def colAt (i : Nat) : Col → Except WErr (List ℚ)
  | .real xs =>
    match xs.get? i with
    | some x => Except.ok [x]
    | none => Except.error WErr.indexError
  | .cplx zs =>
    match zs.get? i with
    | some z => Except.ok [z.1, z.2]
    | none => Except.error WErr.indexError

/-- The `row_data` list built for row `i` (io.py lines 166-172): the scalar
fields of every column in input order. -/
def buildRow (args : List Col) (i : Nat) : Except WErr (List ℚ) :=
  match args with
  | [] => Except.ok []
  | a :: rest =>
    match colAt i a with
    | Except.error e => Except.error e
    | Except.ok v =>
      match buildRow rest i with
      | Except.error e => Except.error e
      | Except.ok vs => Except.ok (v ++ vs)

/-- The data-row loop (io.py lines 165-173): for each row index, build the
row data and print the interpolated line; the first failure aborts the
loop, the lines already printed staying in the output. -/
def writeRows (args : List Col) (rowFmt : Str) : List Nat → List Str × Option WErr
  | [] => ([], none)
  | i :: rest =>
    match buildRow args i with
    | Except.error e => ([], some e)
    | Except.ok vals =>
      match pyFormat rowFmt vals with
      | Except.error e => ([], some e)
      | Except.ok line =>
        let p := writeRows args rowFmt rest
        (line :: p.1, p.2)

/-- The body of `writetotxt` inside the try block (io.py lines 116-185):
the lines printed to the sink, in order, together with the exception that
escapes, if any. -/
def writeBody (args : List Col) (fmt : Fmt) (delim : Str)
    (header footer : StrOrList) (comments : Str) : List Str × Option WErr :=
  let hLines := hfLines header comments
  let init := fmtInit fmt delim
  match scanArgs (fmtTok fmt) delim init.2 ⟨0, 0, init.1⟩ args with
  | Except.error e => (hLines, some e)
  | Except.ok st =>
    if countPercent st.row_fmt ≠ st.n_cols then (hLines, some WErr.fmtMismatch)
    else
      let rowFmt := if init.2 then st.row_fmt else stripTrailingDelim delim st.row_fmt
      let p := writeRows args rowFmt (List.range st.n_rows)
      match p.2 with
      | some e => (hLines ++ p.1, some e)
      | none => (hLines ++ p.1 ++ hfLines footer comments, none)

/-- The `fname` argument: a path string or an already-open stream. -/
inductive Sink where
  | path (s : Str) : Sink
  | stream : Sink

/-- Result of a call to `writetotxt`: the lines written to the sink, the
escaping exception if any, whether the routine opened the file itself
(io.py lines 103-112), whether it opened it through gzip (line 106-108),
and whether it closed it in the finally clause (lines 187-189). -/
structure WResult where
  lines : List Str
  error : Option WErr
  ownFh : Bool
  gzip : Bool
  closed : Bool
deriving DecidableEq, Repr

/-- The routine `writetotxt` (io.py lines 94-189). The file handle is
closed in the finally clause exactly when the routine opened it itself,
on every exit path. -/
def writetotxt (fname : Sink) (args : List Col) (fmt : Fmt) (delim : Str)
    (header footer : StrOrList) (comments : Str) : WResult :=
  let own := match fname with | .path _ => true | .stream => false
  let gz := match fname with | .path s => endsWith (".gz".data) s | .stream => false
  let p := writeBody args fmt delim header footer comments
  ⟨p.1, p.2, own, gz, own⟩

/-! ### Helper lemmas -/

lemma scalarWidth_nil : scalarWidth [] = 0 := rfl

lemma scalarWidth_cons (a : Col) (l : List Col) :
    scalarWidth (a :: l) = a.width + scalarWidth l := by
  simp [scalarWidth]

lemma Col.width_pos (a : Col) : 0 < a.width := by
  cases a <;> simp [Col.width]

lemma scalarWidth_pos (args : List Col) (h : args ≠ []) : 0 < scalarWidth args := by
  cases args with
  | nil => exact absurd rfl h
  | cons a l =>
    have := a.width_pos
    rw [scalarWidth_cons]
    omega

lemma countPercent_append (s t : Str) :
    countPercent (s ++ t) = countPercent s + countPercent t := by
  simp [countPercent, List.countP_append]

lemma countPercent_nil : countPercent [] = 0 := rfl

lemma addCol_n_cols (tok delim : Str) (comp : Bool) (a : Col) (st : ScanState) :
    (addCol tok delim comp a st).n_cols = st.n_cols + a.width := by
  cases a <;> simp [addCol, Col.isComplex, Col.width]

lemma addCol_row_fmt_true (tok delim : Str) (a : Col) (st : ScanState) :
    (addCol tok delim true a st).row_fmt = st.row_fmt := by
  cases a <;> simp [addCol, Col.isComplex]

lemma addCol_count_false (tok delim : Str) (a : Col) (st : ScanState) :
    countPercent (addCol tok delim false a st).row_fmt =
      countPercent st.row_fmt + a.width * (countPercent tok + countPercent delim) := by
  cases a with
  | real xs => simp [addCol, Col.isComplex, Col.width, countPercent_append]
  | cplx zs =>
    simp [addCol, Col.isComplex, Col.width, countPercent_append]
    omega

lemma scanStep_ok_spec (tok delim : Str) (comp : Bool) (st : ScanState) (a : Col)
    (st' : ScanState) (h : scanStep tok delim comp st a = Except.ok st') :
    st'.n_cols = st.n_cols + a.width ∧
    (comp = true → st'.row_fmt = st.row_fmt) ∧
    (comp = false → countPercent st'.row_fmt =
      countPercent st.row_fmt + a.width * (countPercent tok + countPercent delim)) := by
  unfold scanStep at h
  split at h
  · cases h
    refine ⟨addCol_n_cols tok delim comp a _, ?_, ?_⟩
    · intro hc; subst hc; exact addCol_row_fmt_true tok delim a _
    · intro hc; subst hc; exact addCol_count_false tok delim a _
  · split at h
    · cases h
      refine ⟨addCol_n_cols tok delim comp a _, ?_, ?_⟩
      · intro hc; subst hc; exact addCol_row_fmt_true tok delim a _
      · intro hc; subst hc; exact addCol_count_false tok delim a _
    · cases h

lemma scanArgs_ok_spec (tok delim : Str) (comp : Bool) :
    ∀ (cols : List Col) (st0 st : ScanState),
      scanArgs tok delim comp st0 cols = Except.ok st →
      st.n_cols = st0.n_cols + scalarWidth cols ∧
      (comp = true → st.row_fmt = st0.row_fmt) ∧
      (comp = false → countPercent st.row_fmt =
        countPercent st0.row_fmt + scalarWidth cols * (countPercent tok + countPercent delim))
  | [], st0, st, h => by
    cases h
    simp [scalarWidth]
  | a :: rest, st0, st, h => by
    unfold scanArgs at h
    cases hs : scanStep tok delim comp st0 a with
    | error e => rw [hs] at h; cases h
    | ok st1 =>
      rw [hs] at h
      have ih := scanArgs_ok_spec tok delim comp rest st1 st h
      have hstep := scanStep_ok_spec tok delim comp st0 a st1 hs
      refine ⟨?_, ?_, ?_⟩
      · rw [ih.1, hstep.1, scalarWidth_cons]; omega
      · intro hc; rw [ih.2.1 hc, hstep.2.1 hc]
      · intro hc
        rw [ih.2.2 hc, hstep.2.2 hc, scalarWidth_cons]
        ring

lemma scanArgs_append (tok delim : Str) (comp : Bool) :
    ∀ (l1 l2 : List Col) (st : ScanState),
      scanArgs tok delim comp st (l1 ++ l2) =
        match scanArgs tok delim comp st l1 with
        | Except.error e => Except.error e
        | Except.ok st' => scanArgs tok delim comp st' l2
  | [], l2, st => rfl
  | a :: rest, l2, st => by
    have hL : scanArgs tok delim comp st ((a :: rest) ++ l2) =
        match scanStep tok delim comp st a with
        | Except.error e => Except.error e
        | Except.ok st1 => scanArgs tok delim comp st1 (rest ++ l2) := rfl
    have hR : scanArgs tok delim comp st (a :: rest) =
        match scanStep tok delim comp st a with
        | Except.error e => Except.error e
        | Except.ok st1 => scanArgs tok delim comp st1 rest := rfl
    rw [hL, hR]
    cases scanStep tok delim comp st a with
    | error e => rfl
    | ok st1 => exact scanArgs_append tok delim comp rest l2 st1

lemma scanArgs_break (tok delim : Str) (comp : Bool) (pre : List Col) (a : Col)
    (rest : List Col) (st0 st : ScanState)
    (h1 : scanArgs tok delim comp st0 pre = Except.ok st)
    (h2 : st.n_rows ≠ 0) (h3 : a.len ≠ st.n_rows) :
    scanArgs tok delim comp st0 (pre ++ a :: rest) = Except.error WErr.lengthMismatch := by
  rw [scanArgs_append, h1]
  show scanArgs tok delim comp st (a :: rest) = _
  unfold scanArgs scanStep
  rw [if_neg h2, if_neg (fun hh => h3 hh.symm)]

lemma colAt_ok_length (i : Nat) (a : Col) (v : List ℚ) (h : colAt i a = Except.ok v) :
    v.length = a.width := by
  cases a with
  | real xs =>
    simp only [colAt] at h
    cases hx : xs.get? i with
    | none => rw [hx] at h; cases h
    | some x => rw [hx] at h; cases h; simp [Col.width]
  | cplx zs =>
    simp only [colAt] at h
    cases hz : zs.get? i with
    | none => rw [hz] at h; cases h
    | some z => rw [hz] at h; cases h; simp [Col.width]

lemma colAt_cplx_ok (i : Nat) (zs : List (ℚ × ℚ)) (v : List ℚ)
    (h : colAt i (Col.cplx zs) = Except.ok v) :
    ∃ z, zs.get? i = some z ∧ v = [z.1, z.2] := by
  simp only [colAt] at h
  cases hz : zs.get? i with
  | none => rw [hz] at h; cases h
  | some z => rw [hz] at h; cases h; exact ⟨z, rfl, rfl⟩

lemma buildRow_ok_length (i : Nat) :
    ∀ (args : List Col) (vals : List ℚ),
      buildRow args i = Except.ok vals → vals.length = scalarWidth args
  | [], vals, h => by cases h; simp [scalarWidth]
  | a :: rest, vals, h => by
    unfold buildRow at h
    cases hc : colAt i a with
    | error e => rw [hc] at h; cases h
    | ok v =>
      rw [hc] at h
      cases hr : buildRow rest i with
      | error e => rw [hr] at h; cases h
      | ok vs =>
        rw [hr] at h
        cases h
        rw [List.length_append, colAt_ok_length i a v hc,
          buildRow_ok_length i rest vs hr, scalarWidth_cons]

lemma buildRow_append (i : Nat) :
    ∀ (l1 l2 : List Col) (vals : List ℚ),
      buildRow (l1 ++ l2) i = Except.ok vals →
      ∃ v1 v2, buildRow l1 i = Except.ok v1 ∧ buildRow l2 i = Except.ok v2 ∧
        vals = v1 ++ v2
  | [], l2, vals, h => ⟨[], vals, rfl, h, rfl⟩
  | a :: rest, l2, vals, h => by
    rw [List.cons_append] at h
    unfold buildRow at h
    cases hc : colAt i a with
    | error e => rw [hc] at h; cases h
    | ok v =>
      rw [hc] at h
      cases hr : buildRow (rest ++ l2) i with
      | error e => rw [hr] at h; cases h
      | ok vs =>
        rw [hr] at h
        cases h
        obtain ⟨v1, v2, hv1, hv2, hv⟩ := buildRow_append i rest l2 vs hr
        refine ⟨v ++ v1, v2, ?_, hv2, by rw [hv, List.append_assoc]⟩
        unfold buildRow
        rw [hc, hv1]

lemma writeBody_scan_error (args : List Col) (fmt : Fmt) (delim : Str)
    (header footer : StrOrList) (comments : Str) (e : WErr)
    (h : scanArgs (fmtTok fmt) delim (fmtInit fmt delim).2
        ⟨0, 0, (fmtInit fmt delim).1⟩ args = Except.error e) :
    writeBody args fmt delim header footer comments = (hfLines header comments, some e) := by
  simp only [writeBody, h]

lemma writeBody_fmt_error (args : List Col) (fmt : Fmt) (delim : Str)
    (header footer : StrOrList) (comments : Str) (st : ScanState)
    (h1 : scanArgs (fmtTok fmt) delim (fmtInit fmt delim).2
        ⟨0, 0, (fmtInit fmt delim).1⟩ args = Except.ok st)
    (h2 : countPercent st.row_fmt ≠ st.n_cols) :
    writeBody args fmt delim header footer comments =
      (hfLines header comments, some WErr.fmtMismatch) := by
  simp only [writeBody, h1]
  rw [if_pos h2]

lemma writetotxt_of_body (fname : Sink) (args : List Col) (fmt : Fmt) (delim : Str)
    (header footer : StrOrList) (comments : Str) :
    (writetotxt fname args fmt delim header footer comments).lines =
      (writeBody args fmt delim header footer comments).1 ∧
    (writetotxt fname args fmt delim header footer comments).error =
      (writeBody args fmt delim header footer comments).2 := by
  cases fname <;> simp [writetotxt]

/-! ### Claims -/

/-- C1: with columns x = [1.0, 2.0] (real) and y = [3+4i, 5+6i] (complex),
fmt "%.1f", delimiter " ", header "time [s]" and comment string "# ", the
writer emits to the sink exactly the comment-prefixed header line followed
by one line per data row ("1.0 3.0 4.0" then "2.0 5.0 6.0"), and nothing
else, the footer being empty. -/
theorem claim_C1 :
    writetotxt Sink.stream
      [Col.real [1, 2], Col.cplx [(3, 4), (5, 6)]]
      (Fmt.str "%.1f".data) " ".data
      (StrOrList.str "time [s]".data) (StrOrList.str "".data) "# ".data =
    ⟨["# time [s]".data, "1.0 3.0 4.0".data, "2.0 5.0 6.0".data],
      none, false, false, false⟩ := by
  decide

/-- C2: a complex column contributes exactly two scalar fields (real part
then imaginary part) to every built data row, placed after the fields of
the preceding columns in input order; and under a single simple format
token holding one directive marker (and a marker-free delimiter), the
assembled row template holds exactly two directive slots per complex column
and one per real column, its total marker count being the scalar width. -/
theorem claim_C2 :
    (∀ (pre post : List Col) (zs : List (ℚ × ℚ)) (i : ℕ) (vals : List ℚ),
      buildRow (pre ++ Col.cplx zs :: post) i = Except.ok vals →
      ∃ z u w, zs.get? i = some z ∧ buildRow pre i = Except.ok u ∧
        buildRow post i = Except.ok w ∧ u.length = scalarWidth pre ∧
        vals = u ++ z.1 :: z.2 :: w) ∧
    (∀ (tok delim : Str) (args : List Col) (st : ScanState),
      countPercent tok = 1 → countPercent delim = 0 →
      scanArgs tok delim false ⟨0, 0, []⟩ args = Except.ok st →
      countPercent st.row_fmt = scalarWidth args ∧ st.n_cols = scalarWidth args) := by
  constructor
  · intro pre post zs i vals h
    obtain ⟨u, v2, hu, hv2, hv⟩ := buildRow_append i pre (Col.cplx zs :: post) vals h
    unfold buildRow at hv2
    cases hc : colAt i (Col.cplx zs) with
    | error e => rw [hc] at hv2; cases hv2
    | ok v =>
      rw [hc] at hv2
      cases hr : buildRow post i with
      | error e => rw [hr] at hv2; cases hv2
      | ok w =>
        rw [hr] at hv2
        cases hv2
        obtain ⟨z, hz, hvz⟩ := colAt_cplx_ok i zs v hc
        exact ⟨z, u, w, hz, hu, rfl, buildRow_ok_length i pre u hu,
          by rw [hv, hvz]; simp⟩
  · intro tok delim args st h1 h2 h3
    have hs := scanArgs_ok_spec tok delim false args ⟨0, 0, []⟩ st h3
    constructor
    · have hc := hs.2.2 rfl
      rw [h1, h2] at hc
      rw [hc]
      simp [countPercent]
    · have hn := hs.1
      simpa using hn

/-- C2 witness: concrete instance of both parts, with one real column ahead
of the complex column [3+4i]. -/
theorem claim_C2_witness :
    (∃ z u w, ([((3 : ℚ), (4 : ℚ))].get? 0 = some z) ∧
      buildRow [Col.real [1]] 0 = Except.ok u ∧
      buildRow [] 0 = Except.ok w ∧ u.length = scalarWidth [Col.real [1]] ∧
      ([1, 3, 4] : List ℚ) = u ++ z.1 :: z.2 :: w) ∧
    (countPercent (ScanState.mk 3 1 "%.1f %.1f %.1f ".data).row_fmt =
      scalarWidth [Col.real [1], Col.cplx [(3, 4)]] ∧
      (ScanState.mk 3 1 "%.1f %.1f %.1f ".data).n_cols =
        scalarWidth [Col.real [1], Col.cplx [(3, 4)]]) :=
  ⟨claim_C2.1 [Col.real [1]] [] [(3, 4)] 0 [1, 3, 4] (by rfl),
    claim_C2.2 "%.1f".data " ".data [Col.real [1], Col.cplx [(3, 4)]]
      (ScanState.mk 3 1 "%.1f %.1f %.1f ".data) (by decide) (by decide) (by rfl)⟩

/-- C3: a header or footer line already starting with the comment string is
emitted unchanged; a line starting with at least as many spaces as the
comment string is long has that many leading spaces overwritten by it,
preserving the total line length; any other line gets the comment string
prepended, growing by its length; and every emitted header/footer line is
the image of a raw line under this transformation. -/
theorem claim_C3 (comments line : Str) :
    (startsWith comments line = true → fixCommentLine comments line = line) ∧
    (startsWith comments line = false →
      startsWith (List.replicate comments.length ' ') line = true →
      fixCommentLine comments line = comments ++ line.drop comments.length ∧
      (fixCommentLine comments line).length = line.length) ∧
    (startsWith comments line = false →
      startsWith (List.replicate comments.length ' ') line = false →
      fixCommentLine comments line = comments ++ line ∧
      (fixCommentLine comments line).length = comments.length + line.length) ∧
    (∀ (x : StrOrList) (l : Str), l ∈ hfLines x comments →
      ∃ raw, l = fixCommentLine comments raw) := by
  refine ⟨?_, ?_, ?_, ?_⟩
  · intro h
    simp [fixCommentLine, h]
  · intro h1 h2
    have h2' : line.take comments.length = List.replicate comments.length ' ' := by
      have h3 := h2
      simp [startsWith, List.length_replicate] at h3
      exact h3
    have hle : comments.length ≤ line.length := by
      have h4 := congrArg List.length h2'
      rw [List.length_take, List.length_replicate] at h4
      omega
    refine ⟨by simp [fixCommentLine, h1, h2], ?_⟩
    simp [fixCommentLine, h1, h2, List.length_append, List.length_drop]
    omega
  · intro h1 h2
    refine ⟨by simp [fixCommentLine, h1, h2], ?_⟩
    simp [fixCommentLine, h1, h2, List.length_append]
  · intro x l hl
    by_cases hc : 0 < (hfJoin x).length
    · simp [hfLines, hc] at hl
      obtain ⟨raw, _, hraw⟩ := hl
      exact ⟨raw, hraw.symm⟩
    · simp [hfLines, hc] at hl

/-- C3 witness: with comment string "# " and the line "   time" (three
leading spaces), the first two spaces are overwritten and the length is
preserved. -/
theorem claim_C3_witness :
    fixCommentLine "# ".data "   time".data = "#  time".data ∧
    (fixCommentLine "# ".data "   time".data).length = ("   time".data).length := by
  have h := (claim_C3 "# ".data "   time".data).2.1 (by decide) (by decide)
  exact ⟨h.1.trans (by decide), h.2⟩

/-- C4 counterexample: columns of lengths [0, 4] do not all have identical
length, yet the call raises no row-length-mismatch ValueError: the scan
establishes no nonzero row count before the second column, and the call
instead fails later with an IndexError while building the first data row. -/
theorem claim_C4_cex :
    (writetotxt Sink.stream [Col.real [], Col.real [1, 2, 3, 4]]
      (Fmt.str "%.1f".data) " ".data (StrOrList.str "".data) (StrOrList.str "".data)
      "# ".data).error = some WErr.indexError ∧
    (writetotxt Sink.stream [Col.real [], Col.real [1, 2, 3, 4]]
      (Fmt.str "%.1f".data) " ".data (StrOrList.str "".data) (StrOrList.str "".data)
      "# ".data).error ≠ some WErr.lengthMismatch := by
  decide

/-- C4 (amended): for every call in which some column's length differs from
the row count already established (nonzero) by the columns preceding it,
the call raises the row-length-mismatch ValueError at that first mismatch,
after the header has been written to the sink and before any data row is
written; in particular columns of lengths [3, 3, 4] raise this error. -/
theorem claim_C4 (fname : Sink) (fmt : Fmt) (delim : Str) (header footer : StrOrList)
    (comments : Str) (pre : List Col) (a : Col) (rest : List Col) (st : ScanState)
    (h1 : scanArgs (fmtTok fmt) delim (fmtInit fmt delim).2
        ⟨0, 0, (fmtInit fmt delim).1⟩ pre = Except.ok st)
    (h2 : st.n_rows ≠ 0) (h3 : a.len ≠ st.n_rows) :
    (writetotxt fname (pre ++ a :: rest) fmt delim header footer comments).lines =
      hfLines header comments ∧
    (writetotxt fname (pre ++ a :: rest) fmt delim header footer comments).error =
      some WErr.lengthMismatch := by
  have hscan := scanArgs_break (fmtTok fmt) delim (fmtInit fmt delim).2 pre a rest
    ⟨0, 0, (fmtInit fmt delim).1⟩ st h1 h2 h3
  have hbody := writeBody_scan_error (pre ++ a :: rest) fmt delim header footer comments
    WErr.lengthMismatch hscan
  have hw := writetotxt_of_body fname (pre ++ a :: rest) fmt delim header footer comments
  rw [hw.1, hw.2, hbody]
  exact ⟨rfl, rfl⟩

/-- C4 witness: columns of lengths [3, 3, 4] raise the row-length-mismatch
error with the header line already written and no data row written. -/
theorem claim_C4_witness :
    (writetotxt Sink.stream [Col.real [1, 1, 1], Col.real [2, 2, 2], Col.real [1, 2, 3, 4]]
      (Fmt.str "%.1f".data) " ".data (StrOrList.str "t".data) (StrOrList.str "".data)
      "# ".data).lines = hfLines (StrOrList.str "t".data) "# ".data ∧
    (writetotxt Sink.stream [Col.real [1, 1, 1], Col.real [2, 2, 2], Col.real [1, 2, 3, 4]]
      (Fmt.str "%.1f".data) " ".data (StrOrList.str "t".data) (StrOrList.str "".data)
      "# ".data).error = some WErr.lengthMismatch :=
  claim_C4 Sink.stream (Fmt.str "%.1f".data) " ".data (StrOrList.str "t".data)
    (StrOrList.str "".data) "# ".data [Col.real [1, 1, 1], Col.real [2, 2, 2]]
    (Col.real [1, 2, 3, 4]) [] ⟨2, 3, "%.1f %.1f ".data⟩ (by rfl) (by decide) (by decide)

/-- C5 counterexample: with 2 real columns and fmt the string "%.1f"
holding a single formatting directive, no error is raised at all: the
single-marker string is treated as a per-column token and replicated, so
the call succeeds and writes one data row. -/
theorem claim_C5_cex :
    writetotxt Sink.stream [Col.real [1], Col.real [2]] (Fmt.str "%.1f".data) " ".data
      (StrOrList.str "".data) (StrOrList.str "".data) "# ".data =
    ⟨["1.0 2.0".data], none, false, false, false⟩ := by
  decide

/-- C5 (amended): with 2 real columns of equal length, a fmt string holding
a single directive marker is not treated as a literal row template but
replicated per column, and the call succeeds with no error; a fmt string
that is treated as a literal template (more than one percent marker) and
whose marker count differs from 2 does raise the format/column-count
mismatch ValueError. -/
theorem claim_C5 (fname : Sink) (f delim : Str) (header footer : StrOrList)
    (comments : Str) (xs ys : List ℚ)
    (h1 : 1 < countPercent f) (h2 : countPercent f ≠ 2) (h3 : xs.length = ys.length) :
    (writetotxt fname [Col.real xs, Col.real ys] (Fmt.str f) delim header footer
      comments).error = some WErr.fmtMismatch := by
  have hInit : fmtInit (Fmt.str f) delim = (f, true) := by
    simp [fmtInit, h1]
  have hscan : scanArgs (fmtTok (Fmt.str f)) delim (fmtInit (Fmt.str f) delim).2
      ⟨0, 0, (fmtInit (Fmt.str f) delim).1⟩ [Col.real xs, Col.real ys] =
      Except.ok ⟨2, ys.length, f⟩ := by
    rw [hInit]
    by_cases h0 : xs.length = 0
    · simp [scanArgs, scanStep, addCol, Col.isComplex, Col.len, h0]
    · simp [scanArgs, scanStep, addCol, Col.isComplex, Col.len, h0, h3]
  have hbody := writeBody_fmt_error [Col.real xs, Col.real ys] (Fmt.str f) delim
    header footer comments ⟨2, ys.length, f⟩ hscan (by simpa using h2)
  rw [(writetotxt_of_body fname [Col.real xs, Col.real ys] (Fmt.str f) delim header
    footer comments).2, hbody]

/-- C5 witness: the literal template "%d %d %d" (three markers) with 2 real
columns raises the format/column-count mismatch. -/
theorem claim_C5_witness :
    (writetotxt Sink.stream [Col.real [1], Col.real [2]] (Fmt.str "%d %d %d".data)
      " ".data (StrOrList.str "".data) (StrOrList.str "".data) "# ".data).error =
      some WErr.fmtMismatch :=
  claim_C5 Sink.stream "%d %d %d".data " ".data (StrOrList.str "".data)
    (StrOrList.str "".data) "# ".data [1] [2] (by decide) (by decide) (by decide)

/-- C6 counterexample: with columns of lengths [1, 2] and the literal
template "%d %d %d" (marker count 3, differing from the scalar-slot count
2), the error raised is the row-length mismatch, not the format/column-count
mismatch. -/
theorem claim_C6_cex :
    (writetotxt Sink.stream [Col.real [1], Col.real [2, 3]] (Fmt.str "%d %d %d".data)
      " ".data (StrOrList.str "".data) (StrOrList.str "".data) "# ".data).error =
      some WErr.lengthMismatch ∧
    (writetotxt Sink.stream [Col.real [1], Col.real [2, 3]] (Fmt.str "%d %d %d".data)
      " ".data (StrOrList.str "".data) (StrOrList.str "".data) "# ".data).error ≠
      some WErr.fmtMismatch := by
  decide

/-- C6 (amended): the row-length validation runs inside the column scan,
before the format/slot-count check: for every input in which some column's
length differs from the already-established nonzero row count and whose
row template's directive-marker count also differs from the computed
scalar-slot count, the error raised is the row-length mismatch, not the
format/column-count mismatch. -/
theorem claim_C6 (fname : Sink) (fmt : Fmt) (delim : Str) (header footer : StrOrList)
    (comments : Str) (pre : List Col) (a : Col) (rest : List Col) (st : ScanState)
    (h1 : scanArgs (fmtTok fmt) delim (fmtInit fmt delim).2
        ⟨0, 0, (fmtInit fmt delim).1⟩ pre = Except.ok st)
    (h2 : st.n_rows ≠ 0) (h3 : a.len ≠ st.n_rows)
    (_h4 : countPercent (fmtInit fmt delim).1 +
        (if (fmtInit fmt delim).2 then 0
          else scalarWidth (pre ++ a :: rest) *
            (countPercent (fmtTok fmt) + countPercent delim)) ≠
        scalarWidth (pre ++ a :: rest)) :
    (writetotxt fname (pre ++ a :: rest) fmt delim header footer comments).error =
      some WErr.lengthMismatch ∧
    (writetotxt fname (pre ++ a :: rest) fmt delim header footer comments).error ≠
      some WErr.fmtMismatch := by
  have hscan := scanArgs_break (fmtTok fmt) delim (fmtInit fmt delim).2 pre a rest
    ⟨0, 0, (fmtInit fmt delim).1⟩ st h1 h2 h3
  have hbody := writeBody_scan_error (pre ++ a :: rest) fmt delim header footer comments
    WErr.lengthMismatch hscan
  have hw := writetotxt_of_body fname (pre ++ a :: rest) fmt delim header footer comments
  rw [hw.2, hbody]
  exact ⟨rfl, by simp⟩

/-- C6 witness: columns of lengths [1, 2] with the literal template
"%d %d %d" (marker count 3 differing from scalar width 2) raise the
row-length mismatch. -/
theorem claim_C6_witness :
    (writetotxt Sink.stream [Col.real [5], Col.real [6, 7]] (Fmt.str "%d %d %d".data)
      " ".data (StrOrList.str "h".data) (StrOrList.str "".data) "# ".data).error =
      some WErr.lengthMismatch ∧
    (writetotxt Sink.stream [Col.real [5], Col.real [6, 7]] (Fmt.str "%d %d %d".data)
      " ".data (StrOrList.str "h".data) (StrOrList.str "".data) "# ".data).error ≠
      some WErr.fmtMismatch :=
  claim_C6 Sink.stream (Fmt.str "%d %d %d".data) " ".data (StrOrList.str "h".data)
    (StrOrList.str "".data) "# ".data [Col.real [5]] (Col.real [6, 7]) []
    ⟨1, 1, "%d %d %d".data⟩ (by rfl) (by decide) (by decide) (by decide)

/-- C7: on every input and every exit path, a caller-supplied stream is
never closed by the routine, while a path sink is always closed by it, the
opened stream being a gzip one exactly when the path ends in ".gz". -/
theorem claim_C7 (args : List Col) (fmt : Fmt) (delim : Str) (header footer : StrOrList)
    (comments : Str) :
    (writetotxt Sink.stream args fmt delim header footer comments).closed = false ∧
    ∀ s : Str, (writetotxt (Sink.path s) args fmt delim header footer comments).closed =
        true ∧
      (writetotxt (Sink.path s) args fmt delim header footer comments).gzip =
        endsWith ".gz".data s := by
  refine ⟨by simp [writetotxt], fun s => ⟨by simp [writetotxt], by simp [writetotxt]⟩⟩

/-- C8 counterexample: with one real and one complex column and fmt given
as the two-token sequence ["%.1f", "%.1f"] (one single-directive token per
input array), the slot-count validation fails with the format/column-count
mismatch, because the scalar-column count doubles the complex array. -/
theorem claim_C8_cex :
    writetotxt Sink.stream [Col.real [1], Col.cplx [(2, 3)]]
      (Fmt.list ["%.1f".data, "%.1f".data]) " ".data (StrOrList.str "".data)
      (StrOrList.str "".data) "# ".data =
    ⟨[], some WErr.fmtMismatch, false, false, false⟩ := by
  decide

/-- C8 (amended): when fmt is a sequence of tokens, the row template is
exactly the tokens joined with the delimiter, but the slot-count validation
compares the template's marker count against the scalar-column count
computed from the arrays (a complex array counting 2): when these differ —
as with one single-directive token per array and a complex array present —
the call raises the format/column-count mismatch. -/
theorem claim_C8 (fname : Sink) (toks : List Str) (delim : Str) (args : List Col)
    (st : ScanState) (header footer : StrOrList) (comments : Str)
    (h1 : scanArgs (fmtTok (Fmt.list toks)) delim true
        ⟨0, 0, List.intercalate delim toks⟩ args = Except.ok st)
    (h2 : countPercent (List.intercalate delim toks) ≠ scalarWidth args) :
    st.row_fmt = List.intercalate delim toks ∧ st.n_cols = scalarWidth args ∧
    (writetotxt fname args (Fmt.list toks) delim header footer comments).error =
      some WErr.fmtMismatch := by
  have hspec := scanArgs_ok_spec (fmtTok (Fmt.list toks)) delim true args
    ⟨0, 0, List.intercalate delim toks⟩ st h1
  have hrf : st.row_fmt = List.intercalate delim toks := by
    simpa using hspec.2.1 rfl
  have hnc : st.n_cols = scalarWidth args := by
    simpa using hspec.1
  have hsc : scanArgs (fmtTok (Fmt.list toks)) delim (fmtInit (Fmt.list toks) delim).2
      ⟨0, 0, (fmtInit (Fmt.list toks) delim).1⟩ args = Except.ok st := h1
  have hct : countPercent st.row_fmt ≠ st.n_cols := by
    rw [hrf, hnc]; exact h2
  have hbody := writeBody_fmt_error args (Fmt.list toks) delim header footer comments
    st hsc hct
  exact ⟨hrf, hnc, by
    rw [(writetotxt_of_body fname args (Fmt.list toks) delim header footer comments).2,
      hbody]⟩

/-- C8 witness: tokens ["%.1f", "%.1f"] against a real and a complex array. -/
theorem claim_C8_witness :
    (ScanState.mk 3 1 "%.1f %.1f".data).row_fmt =
      List.intercalate " ".data ["%.1f".data, "%.1f".data] ∧
    (ScanState.mk 3 1 "%.1f %.1f".data).n_cols =
      scalarWidth [Col.real [4], Col.cplx [(5, 6)]] ∧
    (writetotxt Sink.stream [Col.real [4], Col.cplx [(5, 6)]]
      (Fmt.list ["%.1f".data, "%.1f".data]) " ".data (StrOrList.str "".data)
      (StrOrList.str "".data) "# ".data).error = some WErr.fmtMismatch :=
  claim_C8 Sink.stream ["%.1f".data, "%.1f".data] " ".data
    [Col.real [4], Col.cplx [(5, 6)]] (ScanState.mk 3 1 "%.1f %.1f".data)
    (StrOrList.str "".data) (StrOrList.str "".data) "# ".data (by rfl) (by decide)

/-- C9: the slot-count validation counts raw percent characters and runs
while the trailing delimiter is still attached: any call with a single
simple one-directive token, at least one column (all of equal length, so
that the intended substitution would succeed), and a delimiter containing a
percent character raises the format/column-count mismatch ValueError. -/
theorem claim_C9 (fname : Sink) (tok delim : Str) (args : List Col) (st : ScanState)
    (header footer : StrOrList) (comments : Str)
    (h1 : countPercent tok = 1) (h2 : 1 ≤ countPercent delim) (h3 : args ≠ [])
    (h4 : scanArgs tok delim false ⟨0, 0, []⟩ args = Except.ok st) :
    (writetotxt fname args (Fmt.str tok) delim header footer comments).error =
      some WErr.fmtMismatch := by
  have hInit : fmtInit (Fmt.str tok) delim = ([], false) := by
    simp [fmtInit, h1]
  have hspec := scanArgs_ok_spec tok delim false args ⟨0, 0, []⟩ st h4
  have hpos := scalarWidth_pos args h3
  have hcount : countPercent st.row_fmt =
      scalarWidth args * (countPercent tok + countPercent delim) := by
    have hc := hspec.2.2 rfl
    simpa [countPercent] using hc
  have hncols : st.n_cols = scalarWidth args := by
    simpa using hspec.1
  have hne : countPercent st.row_fmt ≠ st.n_cols := by
    rw [hcount, hncols, h1]
    have hx : 0 < scalarWidth args * countPercent delim :=
      Nat.mul_pos hpos (by omega)
    have hy : scalarWidth args * (1 + countPercent delim) =
        scalarWidth args + scalarWidth args * countPercent delim := by ring
    omega
  have hsc : scanArgs (fmtTok (Fmt.str tok)) delim (fmtInit (Fmt.str tok) delim).2
      ⟨0, 0, (fmtInit (Fmt.str tok) delim).1⟩ args = Except.ok st := by
    rw [hInit]; exact h4
  have hbody := writeBody_fmt_error args (Fmt.str tok) delim header footer comments
    st hsc hne
  rw [(writetotxt_of_body fname args (Fmt.str tok) delim header footer comments).2, hbody]

/-- C9 witness: token "%.1f" with the delimiter "%" and one real column. -/
theorem claim_C9_witness :
    (writetotxt Sink.stream [Col.real [1]] (Fmt.str "%.1f".data) "%".data
      (StrOrList.str "".data) (StrOrList.str "".data) "# ".data).error =
      some WErr.fmtMismatch :=
  claim_C9 Sink.stream "%.1f".data "%".data [Col.real [1]]
    ⟨1, 1, "%.1f%".data⟩ (StrOrList.str "".data) (StrOrList.str "".data) "# ".data
    (by decide) (by decide) (List.cons_ne_nil _ _) (by rfl)

/-- C10: a call with zero column arrays and a single simple token fmt
succeeds without raising: the empty row template passes validation, no data
line is written, the sink holds exactly the comment-prefixed header lines
followed by the comment-prefixed footer lines, and a path sink is still
closed. -/
theorem claim_C10 (fname : Sink) (tok delim : Str) (header footer : StrOrList)
    (comments : Str) (h : countPercent tok ≤ 1) :
    (writetotxt fname [] (Fmt.str tok) delim header footer comments).error = none ∧
    (writetotxt fname [] (Fmt.str tok) delim header footer comments).lines =
      hfLines header comments ++ hfLines footer comments ∧
    ∀ s, fname = Sink.path s →
      (writetotxt fname [] (Fmt.str tok) delim header footer comments).closed = true := by
  have hInit : fmtInit (Fmt.str tok) delim = ([], false) := by
    have hn : ¬ 1 < countPercent tok := by omega
    simp [fmtInit, hn]
  have hsc : scanArgs (fmtTok (Fmt.str tok)) delim (fmtInit (Fmt.str tok) delim).2
      ⟨0, 0, (fmtInit (Fmt.str tok) delim).1⟩ [] = Except.ok ⟨0, 0, []⟩ := by
    rw [hInit]; rfl
  have hbody : writeBody [] (Fmt.str tok) delim header footer comments =
      (hfLines header comments ++ hfLines footer comments, none) := by
    simp only [writeBody, hsc]
    simp [countPercent, writeRows, stripTrailingDelim]
  have hw := writetotxt_of_body fname [] (Fmt.str tok) delim header footer comments
  refine ⟨by rw [hw.2, hbody], by rw [hw.1, hbody], ?_⟩
  intro s hs
  subst hs
  simp [writetotxt]

/-- C10 witness: a path sink, the default-style token "%.18e", header "a"
and footer "b". -/
theorem claim_C10_witness :
    (writetotxt (Sink.path "o.txt".data) [] (Fmt.str "%.18e".data) [] (StrOrList.str "a".data)
      (StrOrList.str "b".data) "# ".data).error = none ∧
    (writetotxt (Sink.path "o.txt".data) [] (Fmt.str "%.18e".data) [] (StrOrList.str "a".data)
      (StrOrList.str "b".data) "# ".data).lines = ["# a".data, "# b".data] ∧
    (writetotxt (Sink.path "o.txt".data) [] (Fmt.str "%.18e".data) [] (StrOrList.str "a".data)
      (StrOrList.str "b".data) "# ".data).closed = true := by
  have h := claim_C10 (Sink.path "o.txt".data) "%.18e".data [] (StrOrList.str "a".data)
    (StrOrList.str "b".data) "# ".data (by decide)
  exact ⟨h.1, h.2.1.trans (by decide), h.2.2 "o.txt".data rfl⟩

end Mgplottools
